import Mathlib

/-!
Verification development for a WebSocket broadcast hub, a resilient
streaming client and a subprocess supervisor.

The TypeScript source is shallowly embedded: JavaScript `Map`s become
association lists, `Set`s become duplicate-free lists, WebSocket handles
become natural-number identifiers, and the event handlers become pure
state-transition functions returning the new state together with the
list of observable side effects (messages written to sockets, events
emitted).
-/

namespace Spec2Proof

/-! ## Association-list primitives (embedding of JS `Map` / `Set`) -/

/-- Lookup in an association list: first binding wins (JS `Map.get`). -/
def alookup {α β : Type} [DecidableEq α] : List (α × β) → α → Option β
  | [], _ => none
  | p :: rest, k => if p.1 = k then some p.2 else alookup rest k

/-- `Map.set`: replace the binding if the key is present, otherwise
append (a JS `Map` keeps the key's original insertion position). -/
def aset {α β : Type} [DecidableEq α] : List (α × β) → α → β → List (α × β)
  | [], k, v => [(k, v)]
  | p :: rest, k, v =>
    if p.1 = k then (k, v) :: rest else p :: aset rest k v

/-- `Map.delete`: drop every binding of the key. -/
def adel {α β : Type} [DecidableEq α] : List (α × β) → α → List (α × β)
  | [], _ => []
  | p :: rest, k => if p.1 = k then adel rest k else p :: adel rest k

/-- `Set.add`: append if not already a member. -/
def sadd (l : List Nat) (x : Nat) : List Nat :=
  if x ∈ l then l else l ++ [x]

/-- `Set.delete`: drop the member. -/
def sdel : List Nat → Nat → List Nat
  | [], _ => []
  | y :: rest, x => if y = x then sdel rest x else y :: sdel rest x

/-! ## Wire message model (`types.ts`)

`Message` carries a `type`, `containerID`, `timestamp` and a `data`
payload.  The hub itself never validates the payload shape (it casts),
so inbound payloads are kept opaque via the `raw` constructor; payloads
the hub synthesizes itself (the welcome message, heartbeat pongs) use
the structured constructors. -/

inductive MessageType
  | LOG | ERROR | STATUS | HEARTBEAT | COMPLETE
  deriving DecidableEq, Repr

/-- `Object.values(MessageType).includes(s)` — the string enum check. -/
def messageTypeOfString : String → Option MessageType
  | "LOG" => some .LOG
  | "ERROR" => some .ERROR
  | "STATUS" => some .STATUS
  | "HEARTBEAT" => some .HEARTBEAT
  | "COMPLETE" => some .COMPLETE
  | _ => none

inductive StatusKind
  | starting | running | completed | failed
  deriving DecidableEq, Repr

inductive MsgData
  /-- StatusData `{status, message?}`. -/
  | status (status : StatusKind) (message : Option String)
  /-- HeartbeatData `{timestamp, uptime?}`. -/
  | heartbeat (timestamp : String) (uptime : Option Nat)
  /-- An inbound payload the server casts without inspecting. -/
  | raw (id : Nat)
  deriving DecidableEq, Repr

structure Message where
  type : MessageType
  containerID : String
  timestamp : String
  data : MsgData
  deriving DecidableEq, Repr

/-! ## SessionManager (`session-manager.ts`)

State: `connections : Map<string, Set<WebSocket>>` and
`connectionMetadata : Map<WebSocket, {containerID, ...}>`.  Only the
`containerID` field of the metadata is semantically relevant (the
`clientID` and `connectedAt` fields never influence control flow). -/

structure SMState where
  connections : List (String × List Nat)
  connectionMetadata : List (Nat × String)
  deriving DecidableEq, Repr

def SMState.empty : SMState := ⟨[], []⟩

/-- `SessionManager.addConnection`: ensure the container entry exists,
add the socket to its set, record the metadata. -/
def addConnection (st : SMState) (containerID : String) (ws : Nat) : SMState :=
  let conns :=
    match alookup st.connections containerID with
    | some s => aset st.connections containerID (sadd s ws)
    | none => st.connections ++ [(containerID, [ws])]
  { connections := conns,
    connectionMetadata := aset st.connectionMetadata ws containerID }

/-- `SessionManager.removeConnection`: no metadata entry means an early
return; otherwise delete the socket from its container's set, dropping
the container entry when the set becomes empty, then delete the
metadata entry. -/
def removeConnection (st : SMState) (ws : Nat) : SMState :=
  match alookup st.connectionMetadata ws with
  | none => st
  | some containerID =>
    let conns :=
      match alookup st.connections containerID with
      | none => st.connections
      | some s =>
        let s' := sdel s ws
        if s'.length = 0 then adel st.connections containerID
        else aset st.connections containerID s'
    { connections := conns,
      connectionMetadata := adel st.connectionMetadata ws }

/-- `SessionManager.broadcast`: send to every open socket whose write
succeeds; sockets that are not open or whose write throws are collected
and removed after the loop.  `wsOpen ws` models `ws.readyState === OPEN`
and `sendOk ws` models `ws.send` not throwing.  Returns the new state
and the list of sockets the message was written to. -/
def broadcast (st : SMState) (containerID : String) (wsOpen sendOk : Nat → Bool) :
    SMState × List Nat :=
  match alookup st.connections containerID with
  | none => (st, [])
  | some s =>
    if s.length = 0 then (st, [])
    else
      let sent := s.filter (fun w => wsOpen w && sendOk w)
      let dead := s.filter (fun w => !(wsOpen w && sendOk w))
      (dead.foldl removeConnection st, sent)

/-- `SessionManager.closeContainer`: close each socket (not modelled —
closing does not mutate the registry) and delete the container entry.
The metadata entries are left behind, exactly as in the source. -/
def closeContainer (st : SMState) (containerID : String) : SMState :=
  match alookup st.connections containerID with
  | none => st
  | some _ => { st with connections := adel st.connections containerID }

/-- `SessionManager.shutdown`: clears both maps. -/
def shutdown (_st : SMState) : SMState := SMState.empty

/-- `SessionManager.getContainerSessions`: a snapshot of the sessions
that currently have at least one connection; connection sets are copied
(`new Set(connections)`), so later registry mutation does not affect an
already-taken snapshot. -/
def getContainerSessions (st : SMState) : List (String × List Nat) :=
  st.connections.filter (fun p => p.2.length > 0)

/-! ## The hub server (`index.ts`) -/

/-- JS truthiness of an optional string (absent and `""` are falsy). -/
def truthy : Option String → Bool
  | none => false
  | some s => !(s == "")

/-- `authenticateConnection`: the query token must be present, truthy
and equal to the configured token. -/
def authenticateConnection (token : Option String) (authToken : String) : Bool :=
  match token with
  | none => false
  | some t => !(t == "") && t == authToken

/-- The fields of a successfully JSON-parsed frame that `parseMessage`
inspects.  `none` encodes a missing (or falsy) field; the payload under
`data` is never shape-checked by the server, so it stays opaque. -/
structure RawMsg where
  type : Option String
  containerID : Option String
  timestamp : Option String
  data : Option Nat
  deriving DecidableEq, Repr

/-- `parseMessage`: `none` input encodes a `JSON.parse` failure; then
the four required fields must be truthy and `type` must be one of the
enumerated message kinds, otherwise `null` is returned. -/
def parseMessage (raw : Option RawMsg) : Option Message :=
  match raw with
  | none => none
  | some r =>
    if truthy r.type && truthy r.containerID && truthy r.timestamp
        && r.data.isSome then
      match r.type with
      | some t =>
        match messageTypeOfString t with
        | some mt =>
          some { type := mt, containerID := r.containerID.getD "",
                 timestamp := r.timestamp.getD "",
                 data := .raw (r.data.getD 0) }
        | none => none
      | none => none
    else none

/-- Per-socket `ConnectionInfo` (the `lastPong` date never influences
control flow and is omitted). -/
structure ConnInfo where
  isAlive : Bool
  authenticated : Bool
  deriving DecidableEq, Repr

abbrev InfoMap := List (Nat × ConnInfo)

/-- The `wss.on('connection')` handler, run only for connections the
`verifyClient` token check admitted: record `ConnectionInfo`, and when
the supplied `containerID` query value is truthy, bind the socket into
the session registry and send the synthesized STATUS `running` welcome
message.  Returns the new registry, the new info map, and the list of
`(socket, message)` writes performed. -/
def onConnection (st : SMState) (info : InfoMap) (cid : Option String)
    (ws : Nat) (now : String) : SMState × InfoMap × List (Nat × Message) :=
  let info' := aset info ws { isAlive := true, authenticated := true }
  if truthy cid then
    let c := cid.getD ""
    let st' := addConnection st c ws
    let welcome : Message :=
      { type := .STATUS, containerID := c, timestamp := now,
        data := .status .running (some "Connected to container log stream") }
    (st', info', [(ws, welcome)])
  else
    (st, info', [])

/-- `handleHeartbeatMessage`: raise the sender's liveness flag and echo
a fresh HEARTBEAT pong to the sender when its socket is open. -/
def handleHeartbeatMessage (st : SMState) (info : InfoMap) (ws : Nat)
    (m : Message) (wsOpen : Nat → Bool) (now : String) :
    SMState × InfoMap × List (Nat × Message) :=
  let info' :=
    match alookup info ws with
    | some ci => aset info ws { ci with isAlive := true }
    | none => info
  let pong : Message :=
    { type := .HEARTBEAT, containerID := m.containerID, timestamp := now,
      data := .heartbeat now none }
  if wsOpen ws then (st, info', [(ws, pong)]) else (st, info', [])

/-- `handleMessage`: unauthenticated (or unknown) senders are ignored;
LOG/STATUS/ERROR/COMPLETE messages are broadcast to the sender's
container session; HEARTBEAT updates liveness and echoes a pong. -/
def handleMessage (st : SMState) (info : InfoMap) (ws : Nat) (m : Message)
    (wsOpen sendOk : Nat → Bool) (now : String) :
    SMState × InfoMap × List (Nat × Message) :=
  match alookup info ws with
  | none => (st, info, [])
  | some ci =>
    if !ci.authenticated then (st, info, [])
    else
      match m.type with
      | .HEARTBEAT => handleHeartbeatMessage st info ws m wsOpen now
      | _ =>
        let (st', sent) := broadcast st m.containerID wsOpen sendOk
        (st', info, sent.map (fun w => (w, m)))

/-- The `ws.on('message')` handler: parse, and dispatch only when the
frame validated. -/
def onMessage (st : SMState) (info : InfoMap) (ws : Nat)
    (raw : Option RawMsg) (wsOpen sendOk : Nat → Bool) (now : String) :
    SMState × InfoMap × List (Nat × Message) :=
  match parseMessage raw with
  | none => (st, info, [])
  | some m => handleMessage st info ws m wsOpen sendOk now

/-- One connection's step of `cleanupDeadConnections`: a socket with no
info record or an already-lowered liveness flag is removed from the
registry; a live socket merely has its flag lowered. -/
def cleanupConn (acc : SMState × InfoMap) (ws : Nat) : SMState × InfoMap :=
  match alookup acc.2 ws with
  | none => (removeConnection acc.1 ws, acc.2)
  | some ci =>
    if ci.isAlive then (acc.1, aset acc.2 ws { ci with isAlive := false })
    else (removeConnection acc.1 ws, acc.2)

/-- `cleanupDeadConnections`: iterate over a snapshot of the sessions,
applying `cleanupConn` to every member connection. -/
def cleanupDeadConnections (st : SMState) (info : InfoMap) :
    SMState × InfoMap :=
  (getContainerSessions st).foldl
    (fun acc sess => sess.2.foldl cleanupConn acc) (st, info)

/-! ## Resilient streaming client (`websocket-client.ts`)

The mutable fields of `WebSocketClient` that influence control flow.
`hasWs` models `this.ws !== null`, `wsOpen` models
`this.ws.readyState === WebSocket.OPEN`, `reconnectTimerSet` models
`this.reconnectTimer !== null`. -/

structure CState where
  connected : Bool
  hasWs : Bool
  wsOpen : Bool
  messageQueue : List Message
  connectAttempts : Nat
  maxRetries : Nat
  reconnectInterval : Nat
  heartbeatOn : Bool
  reconnectTimerSet : Bool
  deriving DecidableEq, Repr

inductive ClientEvent
  | connectedEv
  | disconnectedEv
  | reconnectingEv (attempt : Nat) (delay : Nat)
  | failedEv
  | errorEv
  deriving DecidableEq, Repr

/-- `sendMessage`: when not connected (or the socket is absent or not
open) the envelope is queued; otherwise the write is attempted, and if
it throws (`writeOk = false`) an error event is emitted and the
envelope is queued.  Returns the new state, the frames written to the
transport, and the events emitted. -/
def sendMessage (st : CState) (m : Message) (writeOk : Bool) :
    CState × List Message × List ClientEvent :=
  if !st.connected || !st.hasWs || !st.wsOpen then
    ({ st with messageQueue := st.messageQueue ++ [m] }, [], [])
  else if writeOk then
    (st, [m], [])
  else
    ({ st with messageQueue := st.messageQueue ++ [m] }, [], [.errorEv])

/-- The loop body of `flushMessageQueue`: send each copied envelope in
order. -/
def flushLoop (st : CState) (q : List Message) (writeOk : Message → Bool) :
    CState × List Message × List ClientEvent :=
  match q with
  | [] => (st, [], [])
  | m :: rest =>
    let r1 := sendMessage st m (writeOk m)
    let r2 := flushLoop r1.1 rest writeOk
    (r2.1, r1.2.1 ++ r2.2.1, r1.2.2 ++ r2.2.2)

/-- `flushMessageQueue`: when the queue is non-empty and the client is
connected with a socket, copy the queue, clear it, and send every
copied envelope. -/
def flushMessageQueue (st : CState) (writeOk : Message → Bool) :
    CState × List Message × List ClientEvent :=
  if st.messageQueue.length > 0 && st.connected && st.hasWs then
    flushLoop { st with messageQueue := [] } st.messageQueue writeOk
  else (st, [], [])

/-- The `ws.on('open')` handler: mark connected, reset the attempt
counter, start the heartbeat timer, flush the queue. -/
def onOpen (st : CState) (writeOk : Message → Bool) :
    CState × List Message × List ClientEvent :=
  let st1 := { st with connected := true, hasWs := true, wsOpen := true,
                       connectAttempts := 0, heartbeatOn := true }
  let r := flushMessageQueue st1 writeOk
  (r.1, r.2.1, .connectedEv :: r.2.2)

/-- `reconnect`: clear any pending timer; at `maxRetries` attempts emit
the terminal `failed` event; otherwise compute the exponential backoff
delay, bump the attempt counter, and schedule the next attempt.
Returns the new state, the scheduled delay (if any), and the events. -/
def reconnect (st : CState) : CState × Option Nat × List ClientEvent :=
  let st0 := { st with reconnectTimerSet := false }
  if st0.connectAttempts ≥ st0.maxRetries then
    (st0, none, [.failedEv])
  else
    let delay := st0.reconnectInterval * 2 ^ st0.connectAttempts
    ({ st0 with connectAttempts := st0.connectAttempts + 1,
                reconnectTimerSet := true },
     some delay, [.reconnectingEv (st0.connectAttempts + 1) delay])

/-- The `ws.on('close')` handler: mark disconnected, stop the
heartbeat, emit `disconnected`, and run `reconnect`. -/
def onClose (st : CState) : CState × Option Nat × List ClientEvent :=
  let st1 := { st with connected := false, wsOpen := false,
                       heartbeatOn := false }
  let r := reconnect st1
  (r.1, r.2.1, .disconnectedEv :: r.2.2)

/-- `disconnect`: drop connected status, stop the heartbeat, cancel the
reconnect timer, tear down the socket.  The message queue and the
attempt counter are untouched. -/
def disconnect (st : CState) : CState :=
  { st with connected := false, heartbeatOn := false,
            reconnectTimerSet := false, hasWs := false, wsOpen := false }

/-- `new WebSocket(serverUrl)` inside `connect()`: a fresh, not yet
open socket. -/
def freshSocket (st : CState) : CState :=
  { st with hasWs := true, wsOpen := false }

/-- Submitting a sequence of envelopes through the public send API
(`sendLog`/`sendStatus`/…, all of which delegate to `sendMessage`). -/
def submitAll (st : CState) (ms : List Message) (writeOk : Message → Bool) :
    CState :=
  ms.foldl (fun s m => (sendMessage s m (writeOk m)).1) st

/-- One round of the all-attempts-fail run: the `close` event fires
(`onClose`, which runs `reconnect`); if an attempt was scheduled it
runs `connect()` — tear-down of the old socket plus a fresh socket —
and that attempt fails again, firing the next `close`.  Returns the
backoff delays in order and whether the terminal `failed` event was
emitted.  The fuel argument dominates `maxRetries - connectAttempts`,
so it never runs out on the intended calls. -/
def failingRunAux : Nat → CState → List Nat × Bool
  | 0, _ => ([], false)
  | fuel + 1, st =>
    match onClose st with
    | (st1, some d, _) =>
      let r := failingRunAux fuel (freshSocket (disconnect st1))
      (d :: r.1, r.2)
    | (_, none, _) => ([], true)

/-- The complete all-attempts-fail run starting from the first failed
connection attempt. -/
def failingRun (st : CState) : List Nat × Bool :=
  failingRunAux (st.maxRetries - st.connectAttempts + 1) st

/-! ## Subprocess supervision with timeout (`ClaudeCodeRunner.run`)

The timeout race in `run`: a `setTimeout(timeoutMs)` competes with the
child's `close` event.  The child's behaviour is described by
`closeAt` — the instant (and exit code) at which it would close of its
own accord — and `termExitDelay` — how long after a SIGTERM it exits
(`none` = it ignores SIGTERM). -/

/-- The hard-coded grace period before the forced kill. -/
def graceMs : Nat := 5000

structure SupOutcome where
  exitCode : Int
  success : Bool
  sigtermAt : Option Nat
  sigkillAt : Option Nat
  deriving DecidableEq, Repr

/-- The earliest instant at which the child exits once SIGTERM was sent
at `t`: either it reacts to the signal or it reaches its own close
instant. -/
def exitAfterTerm (t : Nat) (closeAt : Option Nat) (termExitDelay : Option Nat) :
    Option Nat :=
  match termExitDelay, closeAt with
  | some d, some c => some (min (t + d) c)
  | some d, none => some (t + d)
  | none, some c => some c
  | none, none => none

/-- The timeout race of `ClaudeCodeRunner.run`.  If the child closes
before the deadline the timer is cleared and its exit code is the
result (`code || 0`).  Otherwise at the deadline a SIGTERM is sent, the
promise resolves with the sentinel 124 (never a rejection), and a
SIGKILL follows `graceMs` later unless the child has exited by then. -/
def claudeRun (timeoutMs : Nat) (closeAt : Option Nat) (closeCode : Int)
    (termExitDelay : Option Nat) : SupOutcome :=
  match closeAt with
  | some t =>
    if t < timeoutMs then
      { exitCode := closeCode, success := closeCode == 0,
        sigtermAt := none, sigkillAt := none }
    else
      { exitCode := 124, success := false,
        sigtermAt := some timeoutMs,
        sigkillAt :=
          match exitAfterTerm timeoutMs (some t) termExitDelay with
          | some e =>
            if e ≤ timeoutMs + graceMs then none
            else some (timeoutMs + graceMs)
          | none => some (timeoutMs + graceMs) }
  | none =>
    { exitCode := 124, success := false,
      sigtermAt := some timeoutMs,
      sigkillAt :=
        match exitAfterTerm timeoutMs none termExitDelay with
        | some e =>
          if e ≤ timeoutMs + graceMs then none
          else some (timeoutMs + graceMs)
        | none => some (timeoutMs + graceMs) }

/-! ## Line-oriented output streaming (`ProcessRunner.processOutput`)

Text is modelled as `List Char`; `splitOn('\n')` becomes `splitNl`. -/

/-- `String.prototype.split('\n')` on character lists: always returns
at least one (possibly empty) segment; segments contain no newline.
(`splitNl rest` is never empty, so prepending `c` to its head via
`headI`/`tail` is the usual cons-onto-first-segment step.) -/
def splitNl : List Char → List (List Char)
  | [] => [[]]
  | c :: rest =>
    if c = '\n' then [] :: splitNl rest
    else (c :: (splitNl rest).headI) :: (splitNl rest).tail

structure OutBuf where
  stdout : List Char
  stderr : List Char
  deriving DecidableEq, Repr

def OutBuf.empty : OutBuf := ⟨[], []⟩

structure OutEvent where
  line : List Char
  isError : Bool
  deriving DecidableEq, Repr

/-- `ProcessRunner.processOutput`: prepend the stream's buffer, split on
newlines, keep the trailing (unterminated) segment as the new buffer
(`lines.pop() || ''`), and emit one event per remaining truthy —
i.e. non-empty — line. -/
def processOutput (b : OutBuf) (text : List Char) (isError : Bool) :
    OutBuf × List OutEvent :=
  let key := if isError then b.stderr else b.stdout
  let lines := splitNl (key ++ text)
  let rest := (lines.getLast?).getD []
  let evs := (lines.dropLast.filter (fun l => !l.isEmpty)).map
    (fun l => OutEvent.mk l isError)
  (if isError then { b with stderr := rest } else { b with stdout := rest },
   evs)

/-- The flush loop of `ProcessRunner.cleanup`: a non-empty buffered
fragment of either stream is emitted as one final event. -/
def cleanupFlush (b : OutBuf) : List OutEvent :=
  (if !b.stdout.isEmpty then [OutEvent.mk b.stdout false] else []) ++
  (if !b.stderr.isEmpty then [OutEvent.mk b.stderr true] else [])

/-- Feed a sequence of raw chunks (each tagged with its stream) through
`processOutput`. -/
def runChunks (b : OutBuf) : List (List Char × Bool) → OutBuf × List OutEvent
  | [] => (b, [])
  | (t, e) :: rest =>
    let r1 := processOutput b t e
    let r2 := runChunks r1.1 rest
    (r2.1, r1.2 ++ r2.2)

/-- A whole supervised run's output handling: stream every chunk, then
flush the trailing fragments on exit. -/
def runProcessOutput (chunks : List (List Char × Bool)) : List OutEvent :=
  let r := runChunks OutBuf.empty chunks
  r.2 ++ cleanupFlush r.1

/-! ## Association-list lemmas -/

theorem alookup_aset_self {α β : Type} [DecidableEq α] (l : List (α × β))
    (k : α) (v : β) : alookup (aset l k v) k = some v := by
  induction l with
  | nil => simp [aset, alookup]
  | cons p rest ih =>
    by_cases hk : p.1 = k
    · simp [aset, hk, alookup]
    · simp [aset, hk, alookup, ih]

theorem alookup_aset_ne {α β : Type} [DecidableEq α] (l : List (α × β))
    (k k' : α) (v : β) (h : k' ≠ k) :
    alookup (aset l k v) k' = alookup l k' := by
  induction l with
  | nil =>
    have hkk' : ¬ k = k' := fun hh => h hh.symm
    simp [aset, alookup, hkk']
  | cons p rest ih =>
    by_cases hk : p.1 = k
    · have hk' : ¬ p.1 = k' := by rw [hk]; exact fun hh => h hh.symm
      have hkk' : ¬ k = k' := fun hh => h hh.symm
      simp [aset, hk, alookup, hk', hkk']
    · by_cases hp' : p.1 = k'
      · simp [aset, hk, alookup, hp', h]
      · simp [aset, hk, alookup, hp', ih]

theorem alookup_adel_self {α β : Type} [DecidableEq α] (l : List (α × β))
    (k : α) : alookup (adel l k) k = none := by
  induction l with
  | nil => simp [adel, alookup]
  | cons p rest ih =>
    by_cases hk : p.1 = k
    · rw [adel, if_pos hk]; exact ih
    · rw [adel, if_neg hk, alookup, if_neg hk]; exact ih

theorem alookup_adel_ne {α β : Type} [DecidableEq α] (l : List (α × β))
    (k k' : α) (h : k' ≠ k) : alookup (adel l k) k' = alookup l k' := by
  induction l with
  | nil => simp [adel]
  | cons p rest ih =>
    by_cases hk : p.1 = k
    · have hk' : ¬ p.1 = k' := by rw [hk]; exact fun hh => h hh.symm
      rw [adel, if_pos hk, alookup, if_neg hk']
      exact ih
    · rw [adel, if_neg hk, alookup, alookup]
      by_cases hk' : p.1 = k'
      · simp [hk']
      · rw [if_neg hk', if_neg hk']; exact ih

theorem alookup_mem {α β : Type} [DecidableEq α] {l : List (α × β)}
    {k : α} {v : β} (h : alookup l k = some v) : (k, v) ∈ l := by
  induction l with
  | nil => simp [alookup] at h
  | cons p rest ih =>
    by_cases hk : p.1 = k
    · rw [alookup, if_pos hk] at h
      have hv : p.2 = v := Option.some.inj h
      have : p = (k, v) := by
        cases p
        simp only at hk hv
        rw [hk, hv]
      exact this ▸ List.mem_cons_self _ _
    · rw [alookup, if_neg hk] at h
      exact List.mem_cons_of_mem _ (ih h)

theorem mem_adel {α β : Type} [DecidableEq α] {l : List (α × β)} {k : α}
    {p : α × β} (h : p ∈ adel l k) : p ∈ l := by
  induction l with
  | nil => simp [adel] at h
  | cons q rest ih =>
    by_cases hk : q.1 = k
    · rw [adel, if_pos hk] at h
      exact List.mem_cons_of_mem _ (ih h)
    · rw [adel, if_neg hk] at h
      rcases List.mem_cons.1 h with h | h
      · exact h ▸ List.mem_cons_self _ _
      · exact List.mem_cons_of_mem _ (ih h)

theorem mem_aset {α β : Type} [DecidableEq α] {l : List (α × β)} {k : α}
    {v : β} {p : α × β} (h : p ∈ aset l k v) : p ∈ l ∨ p = (k, v) := by
  induction l with
  | nil =>
    rw [aset] at h
    exact Or.inr (List.mem_singleton.1 h)
  | cons q rest ih =>
    by_cases hk : q.1 = k
    · rw [aset, if_pos hk] at h
      rcases List.mem_cons.1 h with h | h
      · exact Or.inr h
      · exact Or.inl (List.mem_cons_of_mem _ h)
    · rw [aset, if_neg hk] at h
      rcases List.mem_cons.1 h with h | h
      · exact Or.inl (h ▸ List.mem_cons_self _ _)
      · rcases ih h with h' | h'
        · exact Or.inl (List.mem_cons_of_mem _ h')
        · exact Or.inr h'

theorem mem_sdel_ne {l : List Nat} {x y : Nat} (h : x ≠ y) :
    x ∈ sdel l y ↔ x ∈ l := by
  induction l with
  | nil => simp [sdel]
  | cons z rest ih =>
    by_cases hz : z = y
    · rw [sdel, if_pos hz, ih]
      constructor
      · exact fun hx => List.mem_cons_of_mem _ hx
      · intro hx
        rcases List.mem_cons.1 hx with hx | hx
        · exact absurd (hz ▸ hx) h
        · exact hx
    · rw [sdel, if_neg hz]
      constructor
      · intro hx
        rcases List.mem_cons.1 hx with hx | hx
        · exact hx ▸ List.mem_cons_self _ _
        · exact List.mem_cons_of_mem _ (ih.1 hx)
      · intro hx
        rcases List.mem_cons.1 hx with hx | hx
        · exact hx ▸ List.mem_cons_self _ _
        · exact List.mem_cons_of_mem _ (ih.2 hx)

theorem not_mem_sdel_self (l : List Nat) (x : Nat) : x ∉ sdel l x := by
  induction l with
  | nil => simp [sdel]
  | cons z rest ih =>
    by_cases hz : z = x
    · rw [sdel, if_pos hz]; exact ih
    · rw [sdel, if_neg hz]
      intro hx
      rcases List.mem_cons.1 hx with hx | hx
      · exact hz hx.symm
      · exact ih hx

theorem mem_sdel_subset {l : List Nat} {x y : Nat} (h : x ∈ sdel l y) :
    x ∈ l := by
  by_cases hxy : x = y
  · exact absurd (hxy ▸ h) (not_mem_sdel_self l y)
  · exact (mem_sdel_ne hxy).1 h

theorem sadd_ne_nil (l : List Nat) (x : Nat) : sadd l x ≠ [] := by
  unfold sadd
  by_cases hx : x ∈ l
  · rw [if_pos hx]
    intro hnil
    rw [hnil] at hx
    exact absurd hx (List.not_mem_nil x)
  · rw [if_neg hx]
    simp

/-! ## The session-registry invariant (claim C2) -/

/-- The public `SessionManager` operations, as invoked by the server
(the `close`/`error` socket handlers installed in `addConnection` both
call `removeConnection`, so they are covered by the `remove`
operation).  A broadcast's interaction with each socket is determined
by which sockets are open and which writes succeed. -/
inductive SMOp
  | add (containerID : String) (ws : Nat)
  | remove (ws : Nat)
  | bcast (containerID : String) (wsOpen sendOk : List Nat)
  | close (containerID : String)
  | shutdownOp

def applyOp (st : SMState) : SMOp → SMState
  | .add cid ws => addConnection st cid ws
  | .remove ws => removeConnection st ws
  | .bcast cid wsOpen sendOk =>
    (broadcast st cid (fun w => wsOpen.contains w) (fun w => sendOk.contains w)).1
  | .close cid => closeContainer st cid
  | .shutdownOp => shutdown st

def applyOps (ops : List SMOp) : SMState :=
  ops.foldl applyOp SMState.empty

/-- The registry invariant: every entry of the `connections` map holds
a non-empty set.  (The converse direction of the claim's "iff" — a
connection set only exists under its key — is structural.) -/
def registryInv (st : SMState) : Prop :=
  ∀ p ∈ st.connections, p.2 ≠ []

theorem registryInv_addConnection {st : SMState} (cid : String) (ws : Nat)
    (h : registryInv st) : registryInv (addConnection st cid ws) := by
  intro p hp
  unfold addConnection at hp
  cases hl : alookup st.connections cid with
  | some s =>
    rw [hl] at hp
    simp only at hp
    rcases mem_aset hp with hp' | hp'
    · exact h p hp'
    · rw [hp']
      exact sadd_ne_nil s ws
  | none =>
    rw [hl] at hp
    simp only at hp
    rcases List.mem_append.1 hp with hp' | hp'
    · exact h p hp'
    · rw [List.mem_singleton.1 hp']
      simp

theorem registryInv_removeConnection {st : SMState} (ws : Nat)
    (h : registryInv st) : registryInv (removeConnection st ws) := by
  unfold removeConnection
  cases hm : alookup st.connectionMetadata ws with
  | none => exact h
  | some cid =>
    intro p hp
    simp only at hp
    cases hl : alookup st.connections cid with
    | none =>
      rw [hl] at hp
      exact h p hp
    | some s =>
      rw [hl] at hp
      simp only at hp
      by_cases hz : (sdel s ws).length = 0
      · rw [if_pos hz] at hp
        exact h p (mem_adel hp)
      · rw [if_neg hz] at hp
        rcases mem_aset hp with hp' | hp'
        · exact h p hp'
        · rw [hp']
          intro hnil
          apply hz
          rw [show sdel s ws = [] from hnil]
          rfl

theorem registryInv_removeFold {l : List Nat} {st : SMState}
    (h : registryInv st) : registryInv (l.foldl removeConnection st) := by
  induction l generalizing st with
  | nil => exact h
  | cons w rest ih => exact ih (registryInv_removeConnection w h)

theorem registryInv_broadcast {st : SMState} (cid : String)
    (wsOpen sendOk : Nat → Bool) (h : registryInv st) :
    registryInv (broadcast st cid wsOpen sendOk).1 := by
  unfold broadcast
  cases hl : alookup st.connections cid with
  | none => exact h
  | some s =>
    by_cases hz : s.length = 0
    · simp only [if_pos hz]
      exact h
    · simp only [if_neg hz]
      exact registryInv_removeFold h

theorem registryInv_closeContainer {st : SMState} (cid : String)
    (h : registryInv st) : registryInv (closeContainer st cid) := by
  unfold closeContainer
  cases alookup st.connections cid with
  | none => exact h
  | some s => exact fun p hp => h p (mem_adel hp)

theorem registryInv_applyOp {st : SMState} (op : SMOp) (h : registryInv st) :
    registryInv (applyOp st op) := by
  cases op with
  | add cid ws => exact registryInv_addConnection cid ws h
  | remove ws => exact registryInv_removeConnection ws h
  | bcast cid wsOpen sendOk => exact registryInv_broadcast cid _ _ h
  | close cid => exact registryInv_closeContainer cid h
  | shutdownOp => exact fun p hp => absurd hp (List.not_mem_nil p)

/-- C2: for every sequence of `SessionManager` operations
(`addConnection`, `removeConnection`, `broadcast`, `closeContainer`,
`shutdown`) starting from the empty state, the registry invariant holds
after each operation — a `containerID` key exists in the `connections`
map iff its set is non-empty.  Quantifying over all operation
sequences covers every intermediate state, so an entry is gone by the
end of whichever operation removed its last connection. -/
theorem registry_invariant_all_ops (ops : List SMOp) :
    registryInv (applyOps ops) := by
  have key : ∀ (l : List SMOp) (st : SMState), registryInv st →
      registryInv (l.foldl applyOp st) := by
    intro l
    induction l with
    | nil => exact fun st h => h
    | cons op rest ih =>
      exact fun st h => ih (applyOp st op) (registryInv_applyOp op h)
  exact key ops SMState.empty (fun p hp => by simp [SMState.empty] at hp)

theorem removeConnection_of_none {st : SMState} {ws : Nat}
    (h : alookup st.connectionMetadata ws = none) :
    removeConnection st ws = st := by
  simp [removeConnection, h]

/-- C10: `removeConnection` is total and idempotent at the public
interface — on a socket with no metadata entry it returns the state
unchanged (no error, both maps untouched), hence removing a socket
twice equals removing it once. -/
theorem removeConnection_missing_noop_idem (st : SMState) (ws : Nat) :
    (alookup st.connectionMetadata ws = none → removeConnection st ws = st) ∧
    removeConnection (removeConnection st ws) ws = removeConnection st ws := by
  constructor
  · exact fun h => removeConnection_of_none h
  · cases hm : alookup st.connectionMetadata ws with
    | none => rw [removeConnection_of_none hm, removeConnection_of_none hm]
    | some cid =>
      have hmeta : (removeConnection st ws).connectionMetadata =
          adel st.connectionMetadata ws := by
        simp [removeConnection, hm]
      exact removeConnection_of_none (hmeta ▸ alookup_adel_self _ _)

/-- Witness for C10 at a concrete input. -/
theorem removeConnection_missing_noop_idem_witness :
    removeConnection SMState.empty 5 = SMState.empty ∧
    removeConnection (removeConnection SMState.empty 5) 5 =
      removeConnection SMState.empty 5 :=
  ⟨(removeConnection_missing_noop_idem SMState.empty 5).1 rfl,
   (removeConnection_missing_noop_idem SMState.empty 5).2⟩

/-! ## Malformed-message handling (claim C3) -/

/-- The claim's notion of a valid inbound frame, written from its own
words: the raw bytes parse as JSON, the four required fields
`type`/`containerID`/`timestamp`/`data` are present (truthy), and the
type is one of the enumerated kinds. -/
def validRaw : Option RawMsg → Bool
  | none => false
  | some r =>
    truthy r.type && truthy r.containerID && truthy r.timestamp &&
    r.data.isSome &&
    (match r.type with
     | some t => (messageTypeOfString t).isSome
     | none => false)

theorem parseMessage_none_of_invalid {raw : Option RawMsg}
    (h : validRaw raw = false) : parseMessage raw = none := by
  cases raw with
  | none => rfl
  | some r =>
    simp only [parseMessage]
    by_cases hc : (truthy r.type && truthy r.containerID &&
        truthy r.timestamp && r.data.isSome) = true
    · rw [if_pos hc]
      simp only [validRaw] at h
      rw [hc] at h
      simp only [Bool.true_and] at h
      cases ht : r.type with
      | none => rfl
      | some t =>
        rw [ht] at h
        cases hmt : messageTypeOfString t with
        | none => simp [hmt]
        | some mt => simp [hmt] at h
    · rw [if_neg hc]

/-- C3: every inbound raw frame that fails validation — unparseable
JSON, a missing required field, or a type outside the enumerated kinds
— is dropped: the registry is untouched (so the sender is not removed),
the liveness info is untouched, and nothing is written to any socket
(no broadcast, no disconnection of the sender). -/
theorem invalid_message_dropped (st : SMState) (info : InfoMap) (ws : Nat)
    (raw : Option RawMsg) (wsOpen sendOk : Nat → Bool) (now : String)
    (h : validRaw raw = false) :
    onMessage st info ws raw wsOpen sendOk now = (st, info, []) := by
  unfold onMessage
  rw [parseMessage_none_of_invalid h]

/-- Witness for C3 at a concrete malformed frame (unknown kind). -/
theorem invalid_message_dropped_witness :
    validRaw (some ⟨some "BOGUS", some "abc", some "t", some 0⟩) = false ∧
    onMessage SMState.empty [] 0
      (some ⟨some "BOGUS", some "abc", some "t", some 0⟩)
      (fun _ => true) (fun _ => true) "now" = (SMState.empty, [], []) :=
  ⟨by rfl,
   invalid_message_dropped SMState.empty [] 0 _ (fun _ => true)
     (fun _ => true) "now" (by rfl)⟩

/-! ## The welcome acknowledgment (claim C1) -/

/-- C1 counterexample: a connection the hub accepts (valid token) that
supplies no `containerID` query parameter receives zero synthesized
STATUS envelopes, not exactly one — the welcome is conditional on the
session identifier being truthy, contradicting "regardless of which
session identifier the connection supplied". -/
theorem welcome_missing_for_absent_containerID :
    authenticateConnection (some "token-1") "token-1" = true ∧
    (onConnection SMState.empty [] none 0 "t0").2.2 = [] := by
  exact ⟨by rfl, by rfl⟩

/-- C1 (amended): for every connection the hub accepts, exactly one
synthesized STATUS `running` welcome envelope is sent back iff the
supplied `containerID` is truthy (present and non-empty); a connection
without a truthy `containerID` receives no welcome and is not bound
into the session registry. -/
theorem welcome_iff_truthy_containerID (st : SMState) (info : InfoMap)
    (cid : Option String) (ws : Nat) (now : String) :
    (truthy cid = true →
      (onConnection st info cid ws now).2.2 =
        [(ws, { type := .STATUS, containerID := cid.getD "",
                timestamp := now,
                data := .status .running
                  (some "Connected to container log stream") })]) ∧
    (truthy cid = false →
      (onConnection st info cid ws now).2.2 = [] ∧
      (onConnection st info cid ws now).1 = st) := by
  constructor
  · intro h
    simp [onConnection, h]
  · intro h
    simp [onConnection, h]

/-- Witness for the amended C1 at a concrete accepted connection. -/
theorem welcome_iff_truthy_containerID_witness :
    (onConnection SMState.empty [] (some "abc") 7 "t1").2.2 =
      [(7, { type := .STATUS, containerID := "abc", timestamp := "t1",
             data := .status .running
               (some "Connected to container log stream") })] :=
  (welcome_iff_truthy_containerID SMState.empty [] (some "abc") 7 "t1").1
    (by rfl)

/-! ## Client send semantics (claim C4) -/

theorem sendBar_eq {st : CState} :
    (!st.connected || !st.hasWs || !st.wsOpen) =
      !(st.connected && st.hasWs && st.wsOpen) := by
  cases hc : st.connected <;> cases hh : st.hasWs <;> cases ho : st.wsOpen
    <;> rfl

/-- C4 counterexample: while connected, a `ws.send` that throws leads
the code to append the envelope to the *back* of the retry queue (not
push it onto the front), and the client is *not* moved out of the
connected state — no reconnect timer is set, only an error event is
emitted. -/
theorem send_failure_appends_back_no_reconnect :
    (sendMessage
        { connected := true, hasWs := true, wsOpen := true,
          messageQueue := [⟨.LOG, "c", "1", .raw 1⟩],
          connectAttempts := 0, maxRetries := 10, reconnectInterval := 1000,
          heartbeatOn := true, reconnectTimerSet := false }
        ⟨.LOG, "c", "2", .raw 2⟩ false).1.messageQueue =
      [⟨.LOG, "c", "1", .raw 1⟩, ⟨.LOG, "c", "2", .raw 2⟩] ∧
    ([⟨.LOG, "c", "1", .raw 1⟩, ⟨.LOG, "c", "2", .raw 2⟩] ≠
      ([⟨.LOG, "c", "2", .raw 2⟩, ⟨.LOG, "c", "1", .raw 1⟩] :
        List Message)) ∧
    (sendMessage
        { connected := true, hasWs := true, wsOpen := true,
          messageQueue := [⟨.LOG, "c", "1", .raw 1⟩],
          connectAttempts := 0, maxRetries := 10, reconnectInterval := 1000,
          heartbeatOn := true, reconnectTimerSet := false }
        ⟨.LOG, "c", "2", .raw 2⟩ false).1.connected = true ∧
    (sendMessage
        { connected := true, hasWs := true, wsOpen := true,
          messageQueue := [⟨.LOG, "c", "1", .raw 1⟩],
          connectAttempts := 0, maxRetries := 10, reconnectInterval := 1000,
          heartbeatOn := true, reconnectTimerSet := false }
        ⟨.LOG, "c", "2", .raw 2⟩ false).1.reconnectTimerSet = false := by
  refine ⟨rfl, ?_, rfl, rfl⟩
  intro h
  have := List.head_eq_of_cons_eq h
  simp at this

/-- C4 (amended): `Send` never fails observably.  When the client is
not connected (or the socket is absent or not open) the envelope is
appended to the retry queue; when connected the envelope is written
immediately; and when that write throws, an `error` event is emitted
and the envelope is appended to the *back* of the retry queue — the
connection state is unchanged and no reconnection is triggered by the
failed send. -/
theorem sendMessage_semantics (st : CState) (m : Message) (writeOk : Bool) :
    ((st.connected && st.hasWs && st.wsOpen) = false →
      sendMessage st m writeOk =
        ({ st with messageQueue := st.messageQueue ++ [m] }, [], [])) ∧
    ((st.connected && st.hasWs && st.wsOpen) = true → writeOk = true →
      sendMessage st m writeOk = (st, [m], [])) ∧
    ((st.connected && st.hasWs && st.wsOpen) = true → writeOk = false →
      sendMessage st m writeOk =
        ({ st with messageQueue := st.messageQueue ++ [m] }, [],
         [.errorEv])) := by
  refine ⟨?_, ?_, ?_⟩
  · intro h
    have hb : (!st.connected || !st.hasWs || !st.wsOpen) = true := by
      rw [sendBar_eq, h]; rfl
    simp [sendMessage, hb]
  · intro h hw
    have hb : (!st.connected || !st.hasWs || !st.wsOpen) = false := by
      rw [sendBar_eq, h]; rfl
    simp [sendMessage, hb, hw]
  · intro h hw
    have hb : (!st.connected || !st.hasWs || !st.wsOpen) = false := by
      rw [sendBar_eq, h]; rfl
    simp [sendMessage, hb, hw]

/-- Witness for the amended C4 on the failed-write branch. -/
theorem sendMessage_semantics_witness :
    sendMessage
        { connected := true, hasWs := true, wsOpen := true,
          messageQueue := [], connectAttempts := 0, maxRetries := 10,
          reconnectInterval := 1000, heartbeatOn := true,
          reconnectTimerSet := false }
        ⟨.LOG, "c", "1", .raw 1⟩ false =
      ({ connected := true, hasWs := true, wsOpen := true,
         messageQueue := [⟨.LOG, "c", "1", .raw 1⟩], connectAttempts := 0,
         maxRetries := 10, reconnectInterval := 1000, heartbeatOn := true,
         reconnectTimerSet := false }, [], [.errorEv]) :=
  (sendMessage_semantics _ _ _).2.2 (by rfl) (by rfl)

/-! ## No-loss FIFO flush (claim C5) -/

theorem sendMessage_not_connected (st : CState) (m : Message) (ok : Bool)
    (h : st.connected = false) :
    sendMessage st m ok =
      ({ st with messageQueue := st.messageQueue ++ [m] }, [], []) := by
  simp [sendMessage, h]

theorem submitAll_disconnected (ms : List Message) (st : CState)
    (wOk : Message → Bool) (h : st.connected = false) :
    (submitAll st ms wOk).messageQueue = st.messageQueue ++ ms ∧
    (submitAll st ms wOk).connected = false := by
  induction ms generalizing st with
  | nil => exact ⟨(List.append_nil _).symm, h⟩
  | cons m rest ih =>
    have hstep := sendMessage_not_connected st m (wOk m) h
    unfold submitAll at ih ⊢
    simp only [List.foldl_cons, hstep]
    have hnext := ih { st with messageQueue := st.messageQueue ++ [m] } h
    rw [hnext.1]
    refine ⟨?_, hnext.2⟩
    simp

theorem flushLoop_all_ok (q : List Message) (st : CState)
    (hc : st.connected = true) (hh : st.hasWs = true)
    (ho : st.wsOpen = true) :
    flushLoop st q (fun _ => true) = (st, q, []) := by
  induction q generalizing st with
  | nil => rfl
  | cons m rest ih =>
    have hb : (!st.connected || !st.hasWs || !st.wsOpen) = false := by
      rw [sendBar_eq, hc, hh, ho]; rfl
    have hstep : sendMessage st m true = (st, [m], []) := by
      simp [sendMessage, hb]
    unfold flushLoop
    rw [hstep]
    simp [ih st hc hh ho]

theorem onOpen_flush_writes (st : CState) :
    (onOpen st (fun _ => true)).2.1 = st.messageQueue ∧
    (onOpen st (fun _ => true)).1.messageQueue = [] := by
  cases hq : st.messageQueue with
  | nil => constructor <;> simp [onOpen, flushMessageQueue, hq]
  | cons m rest =>
    have hflush := flushLoop_all_ok (m :: rest)
      { st with connected := true, hasWs := true, wsOpen := true,
                connectAttempts := 0, heartbeatOn := true,
                messageQueue := [] }
      (by rfl) (by rfl) (by rfl)
    constructor <;> simp [onOpen, flushMessageQueue, hq, hflush]

/-- C5: envelopes submitted while the client is not connected are all
appended to the retry queue in submission order; an explicit
`disconnect` does not clear the queue; and on the next successful
`open` (with the transport writes succeeding) the queued envelopes are
exactly the first frames written, in original FIFO order, after which
the queue is empty. -/
theorem queued_envelopes_flushed_fifo (st : CState) (ms : List Message)
    (h : st.connected = false) :
    (submitAll st ms (fun _ => true)).messageQueue =
      st.messageQueue ++ ms ∧
    (disconnect (submitAll st ms (fun _ => true))).messageQueue =
      st.messageQueue ++ ms ∧
    (onOpen (disconnect (submitAll st ms (fun _ => true)))
        (fun _ => true)).2.1 = st.messageQueue ++ ms ∧
    (onOpen (disconnect (submitAll st ms (fun _ => true)))
        (fun _ => true)).1.messageQueue = [] := by
  obtain ⟨hq, _⟩ := submitAll_disconnected ms st (fun _ => true) h
  exact ⟨hq, hq,
    ((onOpen_flush_writes
      (disconnect (submitAll st ms (fun _ => true)))).1).trans hq,
    (onOpen_flush_writes
      (disconnect (submitAll st ms (fun _ => true)))).2⟩

/-- Witness for C5 at a concrete disconnected client. -/
theorem queued_envelopes_flushed_fifo_witness :
    (onOpen (disconnect (submitAll
        { connected := false, hasWs := false, wsOpen := false,
          messageQueue := [], connectAttempts := 0, maxRetries := 10,
          reconnectInterval := 1000, heartbeatOn := false,
          reconnectTimerSet := false }
        [⟨.LOG, "w", "1", .raw 3⟩, ⟨.STATUS, "w", "2", .raw 4⟩]
        (fun _ => true))) (fun _ => true)).2.1 =
      [⟨.LOG, "w", "1", .raw 3⟩, ⟨.STATUS, "w", "2", .raw 4⟩] :=
  ((queued_envelopes_flushed_fifo _ _ (by rfl)).2.2).1

/-! ## Exponential backoff and terminal failure (claim C6) -/

theorem onClose_retry (st : CState)
    (h : st.connectAttempts < st.maxRetries) :
    onClose st =
      ({ st with connected := false, wsOpen := false, heartbeatOn := false,
                 reconnectTimerSet := true,
                 connectAttempts := st.connectAttempts + 1 },
       some (st.reconnectInterval * 2 ^ st.connectAttempts),
       [.disconnectedEv,
        .reconnectingEv (st.connectAttempts + 1)
          (st.reconnectInterval * 2 ^ st.connectAttempts)]) := by
  have hge : ¬ st.connectAttempts ≥ st.maxRetries := not_le.2 h
  simp [onClose, reconnect, hge]

theorem onClose_failed (st : CState)
    (h : ¬ st.connectAttempts < st.maxRetries) :
    onClose st =
      ({ st with connected := false, wsOpen := false, heartbeatOn := false,
                 reconnectTimerSet := false },
       none, [.disconnectedEv, .failedEv]) := by
  have hge : st.connectAttempts ≥ st.maxRetries := not_lt.1 h
  simp [onClose, reconnect, hge]

/-- The retry state that one failed round of the all-attempts-fail run
reaches: the close handler's bookkeeping, `reconnect`'s increment, then
`connect()` tearing the old socket down and creating a fresh one. -/
def retryState (st : CState) : CState :=
  freshSocket (disconnect
    { st with connected := false, wsOpen := false, heartbeatOn := false,
              reconnectTimerSet := true,
              connectAttempts := st.connectAttempts + 1 })

theorem failingRunAux_step (n : Nat) (st : CState)
    (hlt : st.connectAttempts < st.maxRetries) :
    failingRunAux (n + 1) st =
      (st.reconnectInterval * 2 ^ st.connectAttempts ::
        (failingRunAux n (retryState st)).1,
       (failingRunAux n (retryState st)).2) := by
  rw [failingRunAux, onClose_retry st hlt]
  rfl

theorem failingRunAux_stop (n : Nat) (st : CState)
    (hge : ¬ st.connectAttempts < st.maxRetries) :
    failingRunAux (n + 1) st = ([], true) := by
  rw [failingRunAux, onClose_failed st hge]

theorem retryState_fields (st : CState) :
    (retryState st).connectAttempts = st.connectAttempts + 1 ∧
    (retryState st).maxRetries = st.maxRetries ∧
    (retryState st).reconnectInterval = st.reconnectInterval :=
  ⟨rfl, rfl, rfl⟩

theorem failingRunAux_spec (fuel : Nat) :
    ∀ st : CState, st.maxRetries - st.connectAttempts < fuel →
    failingRunAux fuel st =
      ((List.range' st.connectAttempts
          (st.maxRetries - st.connectAttempts)).map
        (fun k => st.reconnectInterval * 2 ^ k), true) := by
  induction fuel with
  | zero => intro st h; omega
  | succ n ih =>
    intro st h
    by_cases hlt : st.connectAttempts < st.maxRetries
    · rw [failingRunAux_step n st hlt]
      have hrec := ih (retryState st) (by
        rw [(retryState_fields st).1, (retryState_fields st).2.1]
        omega)
      rw [hrec, (retryState_fields st).1, (retryState_fields st).2.1,
        (retryState_fields st).2.2]
      have hn : st.maxRetries - st.connectAttempts =
          (st.maxRetries - (st.connectAttempts + 1)) + 1 := by omega
      rw [hn, List.range'_succ]
      simp
    · rw [failingRunAux_stop n st hlt]
      have hz : st.maxRetries - st.connectAttempts = 0 := by omega
      rw [hz]
      simp

theorem flushLoop_connectAttempts (q : List Message) (st : CState)
    (wOk : Message → Bool) :
    (flushLoop st q wOk).1.connectAttempts = st.connectAttempts := by
  induction q generalizing st with
  | nil => rfl
  | cons m rest ih =>
    unfold flushLoop
    have hstep : (sendMessage st m (wOk m)).1.connectAttempts =
        st.connectAttempts := by
      unfold sendMessage
      by_cases hb : (!st.connected || !st.hasWs || !st.wsOpen) = true
      · simp [hb]
      · simp only [Bool.not_eq_true] at hb
        rw [hb]
        by_cases hw : wOk m = true
        · simp [hw]
        · simp only [Bool.not_eq_true] at hw
          rw [hw]
          simp
    rw [ih (sendMessage st m (wOk m)).1]
    exact hstep

/-- C6: with `maxRetries = N` and base interval `b`, if every
connection attempt fails then the terminal `failed` event is signalled
after exactly `N` reconnection attempts, the backoff delay before
attempt `k` (counting from 0) is `b * 2 ^ k`, and the attempt counter
is reset to 0 only by a successful `open` — every other operation
preserves or increments it. -/
theorem exponential_backoff_terminal_failure (b N : Nat) (st : CState)
    (h0 : st.connectAttempts = 0) (hN : st.maxRetries = N)
    (hb : st.reconnectInterval = b) :
    (failingRun st = ((List.range N).map (fun k => b * 2 ^ k), true) ∧
     (failingRun st).1.length = N) ∧
    (∀ s : CState, ∀ wOk, (onOpen s wOk).1.connectAttempts = 0) ∧
    (∀ s : CState, s.connectAttempts < s.maxRetries →
      (reconnect s).1.connectAttempts = s.connectAttempts + 1) ∧
    (∀ s : CState, ∀ m ok, (sendMessage s m ok).1.connectAttempts =
      s.connectAttempts) ∧
    (∀ s : CState, (disconnect s).connectAttempts = s.connectAttempts) ∧
    (∀ s : CState, (onClose s).1.connectAttempts ≥ s.connectAttempts) := by
  have hmain : failingRun st = ((List.range N).map (fun k => b * 2 ^ k),
      true) := by
    unfold failingRun
    have := failingRunAux_spec (st.maxRetries - st.connectAttempts + 1) st
      (by omega)
    rw [this, h0, hN, hb]
    simp [List.range_eq_range']
  refine ⟨⟨hmain, by rw [hmain]; simp⟩, ?_, ?_, ?_, ?_, ?_⟩
  · intro s wOk
    unfold onOpen flushMessageQueue
    dsimp only
    split
    next => simp [flushLoop_connectAttempts]
    next => rfl
  · intro s hs
    have hge : ¬ s.connectAttempts ≥ s.maxRetries := not_le.2 hs
    simp [reconnect, hge]
  · intro s m ok
    unfold sendMessage
    by_cases hb2 : (!s.connected || !s.hasWs || !s.wsOpen) = true
    · simp [hb2]
    · simp only [Bool.not_eq_true] at hb2
      rw [hb2]
      by_cases hw : ok = true
      · simp [hw]
      · simp only [Bool.not_eq_true] at hw
        rw [hw]
        simp
  · intro s; rfl
  · intro s
    unfold onClose reconnect
    by_cases hge : s.connectAttempts ≥ s.maxRetries
    · simp [hge]
    · simp [hge]

/-- Witness for C6 at `b = 3`, `N = 2`. -/
theorem exponential_backoff_terminal_failure_witness :
    failingRun
        { connected := false, hasWs := false, wsOpen := false,
          messageQueue := [], connectAttempts := 0, maxRetries := 2,
          reconnectInterval := 3, heartbeatOn := false,
          reconnectTimerSet := false } =
      ((List.range 2).map (fun k => 3 * 2 ^ k), true) :=
  ((exponential_backoff_terminal_failure 3 2 _ (by rfl) (by rfl)
    (by rfl)).1).1

/-! ## Timeout escalation and the 124 sentinel (claim C7) -/

/-- C7: for a supervised run whose child is still running when the
wall-clock deadline expires, a graceful SIGTERM is sent at the
deadline; the forced SIGKILL follows exactly `graceMs = 5000` ms later
(a grace period of at most 5 seconds) and only if the child has not
exited by then; and the result resolved to the caller carries the
sentinel exit code 124 with `success = false` — a returned value, not a
signal-derived code or a rejection. -/
theorem timeout_graceful_then_kill_124 (timeoutMs : Nat)
    (closeAt : Option Nat) (closeCode : Int) (termDelay : Option Nat)
    (hrun : ∀ t, closeAt = some t → timeoutMs ≤ t) :
    (claudeRun timeoutMs closeAt closeCode termDelay).sigtermAt =
      some timeoutMs ∧
    (claudeRun timeoutMs closeAt closeCode termDelay).exitCode = 124 ∧
    (claudeRun timeoutMs closeAt closeCode termDelay).success = false ∧
    graceMs = 5000 ∧
    (∀ e, exitAfterTerm timeoutMs closeAt termDelay = some e →
      e ≤ timeoutMs + graceMs →
      (claudeRun timeoutMs closeAt closeCode termDelay).sigkillAt =
        none) ∧
    (∀ e, exitAfterTerm timeoutMs closeAt termDelay = some e →
      timeoutMs + graceMs < e →
      (claudeRun timeoutMs closeAt closeCode termDelay).sigkillAt =
        some (timeoutMs + graceMs)) ∧
    (exitAfterTerm timeoutMs closeAt termDelay = none →
      (claudeRun timeoutMs closeAt closeCode termDelay).sigkillAt =
        some (timeoutMs + graceMs)) := by
  cases closeAt with
  | none =>
    refine ⟨rfl, rfl, rfl, rfl, ?_, ?_, ?_⟩
    · intro e he hle
      simp only [claudeRun, he, if_pos hle]
    · intro e he hgt
      simp only [claudeRun, he, if_neg (not_le.2 hgt)]
    · intro he
      simp only [claudeRun, he]
  | some t =>
    have hnl : ¬ t < timeoutMs := not_lt.2 (hrun t rfl)
    refine ⟨?_, ?_, ?_, rfl, ?_, ?_, ?_⟩
    · simp only [claudeRun, if_neg hnl]
    · simp only [claudeRun, if_neg hnl]
    · simp only [claudeRun, if_neg hnl]
    · intro e he hle
      simp only [claudeRun, if_neg hnl, he, if_pos hle]
    · intro e he hgt
      simp only [claudeRun, if_neg hnl, he, if_neg (not_le.2 hgt)]
    · intro he
      simp only [claudeRun, if_neg hnl, he]

/-- Witness for C7: a child that ignores SIGTERM and never exits. -/
theorem timeout_graceful_then_kill_124_witness :
    (claudeRun 1000 none 0 none).sigtermAt = some 1000 ∧
    (claudeRun 1000 none 0 none).exitCode = 124 ∧
    (claudeRun 1000 none 0 none).sigkillAt = some 6000 := by
  have h := timeout_graceful_then_kill_124 1000 none 0 none
    (fun t ht => by cases ht)
  exact ⟨h.1, h.2.1, h.2.2.2.2.2.2 rfl⟩

/-! ## Line splitting of process output (claim C9) -/

theorem splitNl_ne_nil (l : List Char) : splitNl l ≠ [] := by
  cases l with
  | nil => simp [splitNl]
  | cons c rest =>
    rw [splitNl]
    by_cases hc : c = '\n'
    · simp [hc]
    · simp [hc]

theorem splitNl_no_newline (l : List Char) :
    ∀ s ∈ splitNl l, '\n' ∉ s := by
  induction l with
  | nil =>
    intro s hs
    rw [splitNl] at hs
    rw [List.mem_singleton.1 hs]
    exact List.not_mem_nil _
  | cons c rest ih =>
    intro s hs
    rw [splitNl] at hs
    by_cases hc : c = '\n'
    · rw [if_pos hc] at hs
      rcases List.mem_cons.1 hs with h | h
      · rw [h]; exact List.not_mem_nil _
      · exact ih s h
    · rw [if_neg hc] at hs
      cases hsp : splitNl rest with
      | nil => exact absurd hsp (splitNl_ne_nil rest)
      | cons h0 t0 =>
        rw [hsp] at hs
        simp only [List.headI_cons, List.tail_cons] at hs
        rcases List.mem_cons.1 hs with h | h
        · rw [h]
          intro hmem
          rcases List.mem_cons.1 hmem with h' | h'
          · exact hc h'.symm
          · exact ih h0 (by rw [hsp]; exact List.mem_cons_self h0 t0) h'
        · exact ih s
            (by rw [hsp]; exact List.mem_cons_of_mem h0 h)

theorem splitNl_of_no_newline : ∀ {l : List Char}, '\n' ∉ l →
    splitNl l = [l] := by
  intro l
  induction l with
  | nil => intro _; rfl
  | cons c rest ih =>
    intro h
    have hc : ¬ c = '\n' := by
      intro hh
      exact h (by rw [hh]; exact List.mem_cons_self _ _)
    have hrest : '\n' ∉ rest := fun hm => h (List.mem_cons_of_mem c hm)
    rw [splitNl, if_neg hc, ih hrest]
    simp

theorem getLastD_mem {α : Type} (d : α) (l : List α) (h : l ≠ []) :
    l.getLast?.getD d ∈ l := by
  rw [List.getLast?_eq_getLast_of_ne_nil h, Option.getD_some]
  exact List.getLast_mem h

theorem splitNl_append_last (y : List Char) : ∀ x : List Char,
    splitNl (x ++ y) =
      (splitNl x).dropLast ++
        splitNl ((splitNl x).getLast?.getD [] ++ y) := by
  intro x
  induction x with
  | nil => rfl
  | cons c x' ih =>
    cases hs : splitNl x' with
    | nil => exact absurd hs (splitNl_ne_nil x')
    | cons b t =>
      rw [hs] at ih
      by_cases hc : c = '\n'
      · rw [List.cons_append, splitNl, if_pos hc, splitNl, if_pos hc, hs,
          List.dropLast_cons₂, List.getLast?_cons_cons, List.cons_append,
          ih]
      · rw [List.cons_append, splitNl, if_neg hc, splitNl, if_neg hc, hs]
        simp only [List.headI_cons, List.tail_cons]
        cases t with
        | nil =>
          simp only [List.dropLast_single, List.nil_append,
            List.getLast?_singleton, Option.getD_some] at ih
          simp only [List.dropLast_single, List.getLast?_singleton,
            Option.getD_some, List.nil_append]
          rw [ih, List.cons_append, splitNl, if_neg hc]
        | cons b2 t2 =>
          rw [List.dropLast_cons₂] at ih
          rw [List.dropLast_cons₂, List.getLast?_cons_cons]
          rw [List.getLast?_cons_cons] at ih
          rw [ih]
          simp

theorem processOutput_stdout (b t : List Char) :
    processOutput ⟨b, []⟩ t false =
      (⟨(splitNl (b ++ t)).getLast?.getD [], []⟩,
       ((splitNl (b ++ t)).dropLast.filter (fun l => !l.isEmpty)).map
         (fun l => OutEvent.mk l false)) := rfl

theorem runChunks_stdout : ∀ (chunks : List (List Char)) (b : List Char),
    '\n' ∉ b →
    runChunks ⟨b, []⟩ (chunks.map (fun c => (c, false))) =
      (⟨(splitNl (b ++ chunks.flatten)).getLast?.getD [], []⟩,
       ((splitNl (b ++ chunks.flatten)).dropLast.filter
          (fun l => !l.isEmpty)).map (fun l => OutEvent.mk l false)) := by
  intro chunks
  induction chunks with
  | nil =>
    intro b hb
    rw [List.map_nil, runChunks, List.flatten_nil, List.append_nil,
      splitNl_of_no_newline hb]
    simp
  | cons t rest ih =>
    intro b hb
    rw [List.map_cons, runChunks, processOutput_stdout]
    dsimp only
    have hb1 : '\n' ∉ (splitNl (b ++ t)).getLast?.getD [] :=
      splitNl_no_newline (b ++ t) _ (getLastD_mem [] _ (splitNl_ne_nil _))
    rw [ih _ hb1]
    have hsplit : splitNl (b ++ (t :: rest).flatten) =
        (splitNl (b ++ t)).dropLast ++
          splitNl ((splitNl (b ++ t)).getLast?.getD [] ++ rest.flatten) := by
      rw [List.flatten_cons, ← List.append_assoc]
      exact splitNl_append_last rest.flatten (b ++ t)
    have hne := splitNl_ne_nil
      ((splitNl (b ++ t)).getLast?.getD [] ++ rest.flatten)
    rw [hsplit, List.getLast?_append_of_ne_nil _ hne,
      List.dropLast_append_of_ne_nil _ hne, List.filter_append,
      List.map_append]

/-- C9 counterexample: the chunk `"a\n\nb\n"` contains three complete
newline-terminated lines (`a`, the empty line, `b`), yet only two
events are emitted — the empty line produces no event because of the
truthiness guard `if (line)` — so joining the emitted lines with
newlines cannot reconstruct the output. -/
theorem empty_line_dropped :
    runProcessOutput [("a\n\nb\n".toList, false)] =
      [OutEvent.mk "a".toList false, OutEvent.mk "b".toList false] ∧
    (splitNl "a\n\nb\n".toList).dropLast.length = 3 ∧
    (runProcessOutput [("a\n\nb\n".toList, false)]).length = 2 := by
  refine ⟨?_, ?_, ?_⟩ <;> rfl

/-- C9 (amended): for a run whose raw chunks all arrive on one stream
(stdout shown; events are tagged with the stream flag), the Supervisor
buffers unterminated fragments across chunk boundaries, and the events
emitted over the whole run are exactly the *non-empty* segments of the
newline-split of the concatenated chunks, in order — one event per
non-empty complete line, empty lines dropped, with a non-empty
trailing fragment flushed as one final event on exit.  During the run
(before the exit flush) only the newline-terminated segments have been
emitted, never a partial line. -/
theorem output_events_are_nonempty_lines (chunks : List (List Char)) :
    runProcessOutput (chunks.map (fun c => (c, false))) =
      ((splitNl chunks.flatten).filter (fun l => !l.isEmpty)).map
        (fun l => OutEvent.mk l false) ∧
    (runChunks OutBuf.empty (chunks.map (fun c => (c, false)))).2 =
      ((splitNl chunks.flatten).dropLast.filter (fun l => !l.isEmpty)).map
        (fun l => OutEvent.mk l false) := by
  have hrun := runChunks_stdout chunks [] (List.not_mem_nil _)
  rw [List.nil_append] at hrun
  have hOB : (OutBuf.empty : OutBuf) = ⟨[], []⟩ := rfl
  constructor
  · unfold runProcessOutput
    rw [hOB, hrun]
    dsimp only
    have hne := splitNl_ne_nil chunks.flatten
    have hlast : (splitNl chunks.flatten).getLast?.getD [] =
        (splitNl chunks.flatten).getLast hne := by
      rw [List.getLast?_eq_getLast_of_ne_nil hne, Option.getD_some]
    rw [show cleanupFlush ⟨(splitNl chunks.flatten).getLast?.getD [], []⟩ =
        (if !((splitNl chunks.flatten).getLast?.getD []).isEmpty then
          [OutEvent.mk ((splitNl chunks.flatten).getLast?.getD []) false]
         else []) from by
      unfold cleanupFlush
      simp]
    conv_rhs => rw [← List.dropLast_append_getLast hne]
    rw [List.filter_append, List.map_append, hlast]
    congr 1
    by_cases hp : ((splitNl chunks.flatten).getLast hne).isEmpty
    · simp [hp]
    · simp [hp]
  · rw [hOB, hrun]

/-! ## Liveness sweep and the two-sweep grace window (claim C8)

`wsBound st ws cid` says the socket is bound in the registry: its
metadata names `cid` and it is a member of the set stored under `cid`.
`wsGone st ws cid` says the socket has been evicted: its metadata entry
is gone and it is no longer a member of the set stored under `cid`. -/

def wsBound (st : SMState) (ws : Nat) (cid : String) : Prop :=
  alookup st.connectionMetadata ws = some cid ∧
  ∃ L, alookup st.connections cid = some L ∧ ws ∈ L

def wsGone (st : SMState) (ws : Nat) (cid : String) : Prop :=
  alookup st.connectionMetadata ws = none ∧
  ∀ L, alookup st.connections cid = some L → ws ∉ L

theorem cleanupConn_no_info {acc : SMState × InfoMap} {w : Nat}
    (h : alookup acc.2 w = none) :
    cleanupConn acc w = (removeConnection acc.1 w, acc.2) := by
  simp [cleanupConn, h]

theorem cleanupConn_alive {acc : SMState × InfoMap} {w : Nat}
    {ci : ConnInfo} (h : alookup acc.2 w = some ci)
    (ha : ci.isAlive = true) :
    cleanupConn acc w =
      (acc.1, aset acc.2 w ⟨false, ci.authenticated⟩) := by
  simp [cleanupConn, h, ha]

theorem cleanupConn_dead {acc : SMState × InfoMap} {w : Nat}
    {ci : ConnInfo} (h : alookup acc.2 w = some ci)
    (ha : ci.isAlive = false) :
    cleanupConn acc w = (removeConnection acc.1 w, acc.2) := by
  simp [cleanupConn, h, ha]

theorem removeConnection_noconn {st : SMState} {w : Nat} {c' : String}
    (hmw : alookup st.connectionMetadata w = some c')
    (hcw : alookup st.connections c' = none) :
    removeConnection st w =
      ⟨st.connections, adel st.connectionMetadata w⟩ := by
  simp [removeConnection, hmw, hcw]

theorem removeConnection_drop {st : SMState} {w : Nat} {c' : String}
    {s : List Nat} (hmw : alookup st.connectionMetadata w = some c')
    (hcw : alookup st.connections c' = some s)
    (hz : (sdel s w).length = 0) :
    removeConnection st w =
      ⟨adel st.connections c', adel st.connectionMetadata w⟩ := by
  simp [removeConnection, hmw, hcw, hz]

theorem removeConnection_shrink {st : SMState} {w : Nat} {c' : String}
    {s : List Nat} (hmw : alookup st.connectionMetadata w = some c')
    (hcw : alookup st.connections c' = some s)
    (hz : ¬ (sdel s w).length = 0) :
    removeConnection st w =
      ⟨aset st.connections c' (sdel s w), adel st.connectionMetadata w⟩ := by
  simp [removeConnection, hmw, hcw, hz]

theorem wsBound_removeConnection_ne {st : SMState} {ws : Nat}
    {cid : String} (w : Nat) (hne : w ≠ ws) (hb : wsBound st ws cid) :
    wsBound (removeConnection st w) ws cid := by
  obtain ⟨hm, L, hL, hwL⟩ := hb
  have hwsw : ws ≠ w := fun hh => hne hh.symm
  cases hmw : alookup st.connectionMetadata w with
  | none => rw [removeConnection_of_none hmw]; exact ⟨hm, L, hL, hwL⟩
  | some c' =>
    cases hcw : alookup st.connections c' with
    | none =>
      rw [removeConnection_noconn hmw hcw]
      refine ⟨?_, L, hL, hwL⟩
      show alookup (adel st.connectionMetadata w) ws = some cid
      rw [alookup_adel_ne _ _ _ hwsw]
      exact hm
    | some s =>
      have hmeta : alookup (adel st.connectionMetadata w) ws = some cid := by
        rw [alookup_adel_ne _ _ _ hwsw]; exact hm
      by_cases hcc : c' = cid
      · subst hcc
        have hsL : s = L := by
          rw [hL] at hcw
          exact (Option.some.inj hcw).symm
        subst hsL
        have hmem : ws ∈ sdel s w := (mem_sdel_ne hwsw).2 hwL
        have hlen : ¬ (sdel s w).length = 0 := by
          intro hz
          rw [List.length_eq_zero] at hz
          rw [hz] at hmem
          exact List.not_mem_nil ws hmem
        rw [removeConnection_shrink hmw hcw hlen]
        exact ⟨hmeta, sdel s w, alookup_aset_self _ _ _, hmem⟩
      · have hcid : cid ≠ c' := fun hh => hcc hh.symm
        by_cases hz : (sdel s w).length = 0
        · rw [removeConnection_drop hmw hcw hz]
          refine ⟨hmeta, L, ?_, hwL⟩
          show alookup (adel st.connections c') cid = some L
          rw [alookup_adel_ne _ _ _ hcid]
          exact hL
        · rw [removeConnection_shrink hmw hcw hz]
          refine ⟨hmeta, L, ?_, hwL⟩
          show alookup (aset st.connections c' (sdel s w)) cid = some L
          rw [alookup_aset_ne _ _ _ _ hcid]
          exact hL

theorem wsGone_removeConnection {st : SMState} {ws : Nat} {cid : String}
    (w : Nat) (hg : wsGone st ws cid) :
    wsGone (removeConnection st w) ws cid := by
  obtain ⟨hm, hc⟩ := hg
  by_cases hw : w = ws
  · subst hw
    rw [removeConnection_of_none hm]
    exact ⟨hm, hc⟩
  · have hwsw : ws ≠ w := fun hh => hw hh.symm
    have hmeta : alookup (adel st.connectionMetadata w) ws = none := by
      rw [alookup_adel_ne _ _ _ hwsw]; exact hm
    cases hmw : alookup st.connectionMetadata w with
    | none => rw [removeConnection_of_none hmw]; exact ⟨hm, hc⟩
    | some c' =>
      cases hcw : alookup st.connections c' with
      | none =>
        rw [removeConnection_noconn hmw hcw]
        exact ⟨hmeta, hc⟩
      | some s =>
        by_cases hcc : c' = cid
        · subst hcc
          by_cases hz : (sdel s w).length = 0
          · rw [removeConnection_drop hmw hcw hz]
            refine ⟨hmeta, ?_⟩
            intro L hL
            rw [show alookup (adel st.connections c') c' = none from
              alookup_adel_self _ _] at hL
            cases hL
          · rw [removeConnection_shrink hmw hcw hz]
            refine ⟨hmeta, ?_⟩
            intro L hL hmem
            rw [show alookup (aset st.connections c' (sdel s w)) c' =
                some (sdel s w) from alookup_aset_self _ _ _] at hL
            have hLs : L = sdel s w := (Option.some.inj hL).symm
            rw [hLs] at hmem
            exact hc s hcw (mem_sdel_subset hmem)
        · have hcid : cid ≠ c' := fun hh => hcc hh.symm
          by_cases hz : (sdel s w).length = 0
          · rw [removeConnection_drop hmw hcw hz]
            refine ⟨hmeta, ?_⟩
            intro L hL
            rw [show alookup (adel st.connections c') cid =
                alookup st.connections cid from
              alookup_adel_ne _ _ _ hcid] at hL
            exact hc L hL
          · rw [removeConnection_shrink hmw hcw hz]
            refine ⟨hmeta, ?_⟩
            intro L hL
            rw [show alookup (aset st.connections c' (sdel s w)) cid =
                alookup st.connections cid from
              alookup_aset_ne _ _ _ _ hcid] at hL
            exact hc L hL

theorem wsGone_removeConnection_self {st : SMState} {ws : Nat}
    {cid : String} (hb : wsBound st ws cid) :
    wsGone (removeConnection st ws) ws cid := by
  obtain ⟨hm, L, hL, hwL⟩ := hb
  by_cases hz : (sdel L ws).length = 0
  · rw [removeConnection_drop hm hL hz]
    refine ⟨alookup_adel_self _ _, ?_⟩
    intro L' hL'
    rw [show alookup (adel st.connections cid) cid = none from
      alookup_adel_self _ _] at hL'
    cases hL'
  · rw [removeConnection_shrink hm hL hz]
    refine ⟨alookup_adel_self _ _, ?_⟩
    intro L' hL' hmem
    rw [show alookup (aset st.connections cid (sdel L ws)) cid =
        some (sdel L ws) from alookup_aset_self _ _ _] at hL'
    have hLs : L' = sdel L ws := (Option.some.inj hL').symm
    rw [hLs] at hmem
    exact not_mem_sdel_self L ws hmem

theorem step_frame {acc : SMState × InfoMap} {ws : Nat} {cid : String}
    {ci0 : ConnInfo} (w : Nat) (hne : w ≠ ws)
    (hb : wsBound acc.1 ws cid) (hi : alookup acc.2 ws = some ci0) :
    wsBound (cleanupConn acc w).1 ws cid ∧
    alookup (cleanupConn acc w).2 ws = some ci0 := by
  have hwsw : ws ≠ w := fun hh => hne hh.symm
  cases hiw : alookup acc.2 w with
  | none =>
    rw [cleanupConn_no_info hiw]
    exact ⟨wsBound_removeConnection_ne w hne hb, hi⟩
  | some ci =>
    cases ha : ci.isAlive with
    | true =>
      rw [cleanupConn_alive hiw ha]
      refine ⟨hb, ?_⟩
      show alookup (aset acc.2 w ⟨false, ci.authenticated⟩) ws = some ci0
      rw [alookup_aset_ne _ _ _ _ hwsw]
      exact hi
    | false =>
      rw [cleanupConn_dead hiw ha]
      exact ⟨wsBound_removeConnection_ne w hne hb, hi⟩

theorem step_target_alive {acc : SMState × InfoMap} {ws : Nat}
    {cid : String} {a : Bool} (hb : wsBound acc.1 ws cid)
    (hi : alookup acc.2 ws = some ⟨true, a⟩) :
    wsBound (cleanupConn acc ws).1 ws cid ∧
    alookup (cleanupConn acc ws).2 ws = some ⟨false, a⟩ := by
  rw [cleanupConn_alive hi rfl]
  exact ⟨hb, alookup_aset_self _ _ _⟩

theorem step_target_dead {acc : SMState × InfoMap} {ws : Nat}
    {cid : String} {a : Bool} (hb : wsBound acc.1 ws cid)
    (hi : alookup acc.2 ws = some ⟨false, a⟩) :
    wsGone (cleanupConn acc ws).1 ws cid := by
  rw [cleanupConn_dead hi rfl]
  exact wsGone_removeConnection_self hb

theorem step_gone {acc : SMState × InfoMap} {ws : Nat} {cid : String}
    (w : Nat) (hg : wsGone acc.1 ws cid) :
    wsGone (cleanupConn acc w).1 ws cid := by
  cases hiw : alookup acc.2 w with
  | none =>
    rw [cleanupConn_no_info hiw]
    exact wsGone_removeConnection w hg
  | some ci =>
    cases ha : ci.isAlive with
    | true =>
      rw [cleanupConn_alive hiw ha]
      exact hg
    | false =>
      rw [cleanupConn_dead hiw ha]
      exact wsGone_removeConnection w hg

theorem fold_frame {ws : Nat} {cid : String} {ci0 : ConnInfo} :
    ∀ (l : List Nat) (acc : SMState × InfoMap), ws ∉ l →
    wsBound acc.1 ws cid → alookup acc.2 ws = some ci0 →
    wsBound (l.foldl cleanupConn acc).1 ws cid ∧
    alookup (l.foldl cleanupConn acc).2 ws = some ci0 := by
  intro l
  induction l with
  | nil => exact fun acc _ hb hi => ⟨hb, hi⟩
  | cons w rest ih =>
    intro acc hnm hb hi
    have hw : w ≠ ws := by
      intro hh
      exact hnm (by rw [hh]; exact List.mem_cons_self _ _)
    have hstep := step_frame w hw hb hi
    exact ih (cleanupConn acc w)
      (fun hmem => hnm (List.mem_cons_of_mem _ hmem)) hstep.1 hstep.2

theorem fold_gone {ws : Nat} {cid : String} :
    ∀ (l : List Nat) (acc : SMState × InfoMap),
    wsGone acc.1 ws cid → wsGone (l.foldl cleanupConn acc).1 ws cid := by
  intro l
  induction l with
  | nil => exact fun _ hg => hg
  | cons w rest ih =>
    intro acc hg
    exact ih (cleanupConn acc w) (step_gone w hg)

theorem mem_split_first {α : Type} {x : α} : ∀ {l : List α}, x ∈ l →
    ∃ l1 l2, l = l1 ++ x :: l2 ∧ x ∉ l1 := by
  intro l
  induction l with
  | nil => intro h; exact absurd h (List.not_mem_nil x)
  | cons a rest ih =>
    intro h
    by_cases hax : x = a
    · subst hax
      exact ⟨[], rest, rfl, List.not_mem_nil x⟩
    · rcases List.mem_cons.1 h with h' | h'
      · exact absurd h' hax
      · obtain ⟨l1, l2, heq, hnm⟩ := ih h'
        refine ⟨a :: l1, l2, by rw [heq]; rfl, ?_⟩
        intro hmem
        rcases List.mem_cons.1 hmem with h'' | h''
        · exact hax h''
        · exact hnm h''

theorem nestedFold_eq_flat :
    ∀ (L : List (String × List Nat)) (acc : SMState × InfoMap),
    L.foldl (fun acc sess => sess.2.foldl cleanupConn acc) acc =
    ((L.map Prod.snd).flatten).foldl cleanupConn acc := by
  intro L
  induction L with
  | nil => intro acc; rfl
  | cons p rest ih =>
    intro acc
    rw [List.foldl_cons, List.map_cons, List.flatten_cons,
      List.foldl_append, ih]

theorem cleanupDead_eq_flat (st : SMState) (info : InfoMap) :
    cleanupDeadConnections st info =
      (((getContainerSessions st).map Prod.snd).flatten).foldl
        cleanupConn (st, info) :=
  nestedFold_eq_flat _ _

theorem sweep_alive_survives {st : SMState} {info : InfoMap} {ws : Nat}
    {cid : String} {a : Bool} {l1 l2 : List Nat}
    (hb : wsBound st ws cid) (hi : alookup info ws = some ⟨true, a⟩)
    (hflat : ((getContainerSessions st).map Prod.snd).flatten =
      l1 ++ ws :: l2)
    (h1 : ws ∉ l1) (h2 : ws ∉ l2) :
    wsBound (cleanupDeadConnections st info).1 ws cid ∧
    alookup (cleanupDeadConnections st info).2 ws = some ⟨false, a⟩ := by
  rw [cleanupDead_eq_flat, hflat, List.foldl_append, List.foldl_cons]
  have hstep1 := fold_frame l1 (st, info) h1 hb hi
  have htgt := step_target_alive hstep1.1 hstep1.2
  exact fold_frame l2 _ h2 htgt.1 htgt.2

theorem sweep_dead_evicted {st : SMState} {info : InfoMap} {ws : Nat}
    {cid : String} {a : Bool}
    (hb : wsBound st ws cid) (hi : alookup info ws = some ⟨false, a⟩) :
    wsGone (cleanupDeadConnections st info).1 ws cid := by
  obtain ⟨L, hL, hwL⟩ := hb.2
  have hLne : 0 < L.length := List.length_pos_of_mem hwL
  have hentry : (cid, L) ∈ getContainerSessions st := by
    unfold getContainerSessions
    exact List.mem_filter.2 ⟨alookup_mem hL, by simpa using hLne⟩
  have hmemflat : ws ∈ ((getContainerSessions st).map Prod.snd).flatten :=
    List.mem_flatten.2 ⟨L, List.mem_map.2 ⟨(cid, L), hentry, rfl⟩, hwL⟩
  obtain ⟨l1, l2, hflat, h1⟩ := mem_split_first hmemflat
  rw [cleanupDead_eq_flat, hflat, List.foldl_append, List.foldl_cons]
  have hstep1 := fold_frame l1 (st, info) h1 hb hi
  have hq := step_target_dead hstep1.1 hstep1.2
  exact fold_gone l2 _ hq

/-- C8: a connection with its liveness flag raised (as every freshly
accepted connection starts) is never evicted by the sweep that follows:
it stays bound in the registry and only its flag is lowered; and if it
produces no inbound traffic before the next sweep, that second sweep
evicts it (metadata gone, no longer a member of its session).  The
hypotheses say the socket is bound under `cid` with flag `true` and
occurs exactly once in the sweep's snapshot — which is how the Hub's
connection handler registers every socket.  The last two conjuncts are
the per-connection sweep rule: a connection whose flag is already
`false` (or missing) is evicted, and a live one merely has its flag
reset to `false`. -/
theorem liveness_two_sweep_grace (st : SMState) (info : InfoMap)
    (ws : Nat) (cid : String) (a : Bool) (l1 l2 : List Nat)
    (hb : wsBound st ws cid)
    (hi : alookup info ws = some ⟨true, a⟩)
    (hflat : ((getContainerSessions st).map Prod.snd).flatten =
      l1 ++ ws :: l2)
    (h1 : ws ∉ l1) (h2 : ws ∉ l2) :
    (wsBound (cleanupDeadConnections st info).1 ws cid ∧
     alookup (cleanupDeadConnections st info).2 ws = some ⟨false, a⟩ ∧
     wsGone (cleanupDeadConnections (cleanupDeadConnections st info).1
       (cleanupDeadConnections st info).2).1 ws cid) ∧
    (∀ (acc : SMState × InfoMap) (w : Nat) (ci : ConnInfo),
      alookup acc.2 w = some ci → ci.isAlive = true →
      cleanupConn acc w = (acc.1, aset acc.2 w ⟨false, ci.authenticated⟩)) ∧
    (∀ (acc : SMState × InfoMap) (w : Nat) (ci : ConnInfo),
      alookup acc.2 w = some ci → ci.isAlive = false →
      cleanupConn acc w = (removeConnection acc.1 w, acc.2)) ∧
    (∀ (acc : SMState × InfoMap) (w : Nat),
      alookup acc.2 w = none →
      cleanupConn acc w = (removeConnection acc.1 w, acc.2)) := by
  have hs1 := sweep_alive_survives hb hi hflat h1 h2
  refine ⟨⟨hs1.1, hs1.2, sweep_dead_evicted hs1.1 hs1.2⟩, ?_, ?_, ?_⟩
  · exact fun acc w ci h ha => cleanupConn_alive h ha
  · exact fun acc w ci h ha => cleanupConn_dead h ha
  · exact fun acc w h => cleanupConn_no_info h

/-- Witness for C8: one session `"abc"` holding the single live
socket 0. -/
theorem liveness_two_sweep_grace_witness :
    (wsBound (cleanupDeadConnections ⟨[("abc", [0])], [(0, "abc")]⟩
        [(0, ⟨true, true⟩)]).1 0 "abc" ∧
     alookup (cleanupDeadConnections ⟨[("abc", [0])], [(0, "abc")]⟩
        [(0, ⟨true, true⟩)]).2 0 = some ⟨false, true⟩ ∧
     wsGone (cleanupDeadConnections
       (cleanupDeadConnections ⟨[("abc", [0])], [(0, "abc")]⟩
         [(0, ⟨true, true⟩)]).1
       (cleanupDeadConnections ⟨[("abc", [0])], [(0, "abc")]⟩
         [(0, ⟨true, true⟩)]).2).1 0 "abc") ∧
    (∀ (acc : SMState × InfoMap) (w : Nat) (ci : ConnInfo),
      alookup acc.2 w = some ci → ci.isAlive = true →
      cleanupConn acc w = (acc.1, aset acc.2 w ⟨false, ci.authenticated⟩)) ∧
    (∀ (acc : SMState × InfoMap) (w : Nat) (ci : ConnInfo),
      alookup acc.2 w = some ci → ci.isAlive = false →
      cleanupConn acc w = (removeConnection acc.1 w, acc.2)) ∧
    (∀ (acc : SMState × InfoMap) (w : Nat),
      alookup acc.2 w = none →
      cleanupConn acc w = (removeConnection acc.1 w, acc.2)) :=
  liveness_two_sweep_grace ⟨[("abc", [0])], [(0, "abc")]⟩
    [(0, ⟨true, true⟩)] 0 "abc" true [] []
    ⟨rfl, [0], rfl, List.mem_singleton.2 rfl⟩ rfl (by rfl)
    (List.not_mem_nil 0) (List.not_mem_nil 0)

end Spec2Proof
